import Mathlib

/-!
Verification development for a SysML-like indentation parser and its three
diagram renderers (Mermaid flowchart, PlantUML containment diagram and
Graphviz DOT cluster graph).  The definitions below are shallow embeddings of
the Python sources `SysML2Mermaid.py`, `SysML2UML.py` and `SysML2dot.py`:
pure Python functions become Lean functions, the mutable scope stack of the
parser becomes an explicit zipper state, and the printed warnings become an
explicit list threaded through the state.  Character classes are modelled for
ASCII input, matching the behaviour of the CPython `re` module and `str`
methods on the ASCII model files the repository processes.
-/

/- ## Character classes and Python string helpers -/

/-- Whitespace test matching the Python regex class backslash-s and the
default `str.strip`, restricted to ASCII. -/
def isPySpace (c : Char) : Bool :=
  c == ' ' || c == '\t' || c == '\n' || c == '\r' || c == '\x0b' || c == '\x0c'

/-- ASCII letter test, for the regex class `[A-Za-z]`. -/
def isAsciiLetter (c : Char) : Bool :=
  (65 ≤ c.toNat && c.toNat ≤ 90) || (97 ≤ c.toNat && c.toNat ≤ 122)

/-- ASCII digit test, for the regex class `[0-9]`. -/
def isAsciiDigit (c : Char) : Bool :=
  48 ≤ c.toNat && c.toNat ≤ 57

/-- ASCII alphanumeric test, for the regex class `[A-Za-z0-9]`. -/
def isAsciiAlnum (c : Char) : Bool :=
  isAsciiLetter c || isAsciiDigit c

/-- Word character test, the regex class backslash-w restricted to ASCII. -/
def isWordCh (c : Char) : Bool :=
  isAsciiAlnum c || c == '_'

/-- Character class of the package and actor name group `[A-Za-z0-9\s]`. -/
def isPkgNameCh (c : Char) : Bool :=
  isAsciiAlnum c || isPySpace c

/-- Character class of the part name group: word characters plus brackets. -/
def isPartNameCh (c : Char) : Bool :=
  isWordCh c || c == '[' || c == ']'

/-- Drop the trailing characters of a list satisfying `p`; used to model the
right half of the Python `strip` family. -/
def dropTrail (p : Char → Bool) (l : List Char) : List Char :=
  (l.reverse.dropWhile p).reverse

/-- Model of Python `str.strip()` on the character list of a string. -/
def pyStripL (l : List Char) : List Char :=
  dropTrail isPySpace (l.dropWhile isPySpace)

/-- Model of the Python call `str.strip` with the double quote argument. -/
def stripQuotesL (l : List Char) : List Char :=
  dropTrail (fun c => c == '"') (l.dropWhile (fun c => c == '"'))

/-- Model of Python `str.strip()` on strings. -/
def pyStripStr (s : String) : String :=
  String.mk (pyStripL s.data)

/-- Leading whitespace width of a line: the Python expression
`len(line) - len(line.lstrip())`. -/
def indentOf (l : List Char) : Nat :=
  (l.takeWhile isPySpace).length

/-- Split a character list at every occurrence of a separator. -/
def splitCharList (sep : Char) : List Char → List Char → List (List Char)
  | acc, [] => [acc.reverse]
  | acc, c :: cs =>
      if c == sep then acc.reverse :: splitCharList sep [] cs
      else splitCharList sep (c :: acc) cs

/-- Model of Python `str.splitlines()` for newline separated text. -/
def splitLinesPy (s : String) : List String :=
  let ps := (splitCharList '\n' [] s.data).map String.mk
  match ps.getLast? with
  | some last => if last == "" then ps.dropLast else ps
  | none => ps

/-- Model of Python `str.startswith`. -/
def startsWithPy (s pre : String) : Bool :=
  pre.data.isPrefixOf s.data

/- ## A backtracking regex engine with CPython `re.match` semantics

The four patterns of the parsers use only literals, character classes, the
greedy star and plus over character classes, the greedy option operator and
capturing groups.  The engine below implements exactly the leftmost greedy
backtracking search CPython performs for these constructs, with captures
recorded along the successful path.  `re.match` anchors at the start of the
string and does not require the whole string to be consumed. -/

/-- Captured groups one to three; `none` means the group did not take part in
the match. -/
structure Caps where
  g1 : Option (List Char)
  g2 : Option (List Char)
  g3 : Option (List Char)
deriving DecidableEq, Repr

/-- The empty capture record. -/
def Caps.empty : Caps := ⟨none, none, none⟩

/-- Record the span of group `i`. -/
def setCap (i : Nat) (v : List Char) (c : Caps) : Caps :=
  match i with
  | 1 => { c with g1 := some v }
  | 2 => { c with g2 := some v }
  | 3 => { c with g3 := some v }
  | _ => c

/-- Syntax of the regular expression fragment used by the four patterns. -/
inductive RE where
  | eps : RE
  | ch (p : Char → Bool) : RE
  | cat (a b : RE) : RE
  | starC (p : Char → Bool) : RE
  | quest (a : RE) : RE
  | grp (i : Nat) (a : RE) : RE

/-- Greedy matching of a starred character class: prefer consuming another
character, fall back to the continuation at the current position. -/
def starRun (p : Char → Bool) :
    List Char → Caps → (List Char → Caps → Option Caps) → Option Caps
  | [], c, k => k [] c
  | a :: s, c, k =>
      if p a then
        match starRun p s c k with
        | some out => some out
        | none => k (a :: s) c
      else k (a :: s) c

/-- Backtracking matcher in continuation passing style.  Alternatives are
tried in the greedy preference order CPython uses. -/
def reRun : RE → List Char → Caps → (List Char → Caps → Option Caps) → Option Caps
  | .eps, s, c, k => k s c
  | .ch p, s, c, k =>
      match s with
      | [] => none
      | a :: s2 => if p a then k s2 c else none
  | .cat r1 r2, s, c, k => reRun r1 s c (fun s2 c2 => reRun r2 s2 c2 k)
  | .starC p, s, c, k => starRun p s c k
  | .quest r, s, c, k =>
      match reRun r s c k with
      | some out => some out
      | none => k s c
  | .grp i r, s, c, k =>
      reRun r s c (fun s2 c2 => k s2 (setCap i (s.take (s.length - s2.length)) c2))

/-- Model of `re.match`: anchored at the start, free at the end. -/
def reMatch (r : RE) (s : List Char) : Option Caps :=
  reRun r s Caps.empty (fun _ c => some c)

/-- A literal sequence of characters. -/
def lit : List Char → RE
  | [] => .eps
  | a :: as => .cat (.ch (fun c => c == a)) (lit as)

/-- Greedy plus over a character class. -/
def plusC (p : Char → Bool) : RE := .cat (.ch p) (.starC p)

/-- Zero or more whitespace characters. -/
def wsStar : RE := .starC isPySpace

/-- One or more whitespace characters. -/
def wsPlus : RE := plusC isPySpace

/-- The shared shape of the package and actor patterns: a keyword, the
optionally quoted name group and an optional alias clause. -/
def namedDeclRE (kw : String) : RE :=
  .cat wsStar (.cat (lit kw.data) (.cat wsPlus (.cat
    (.grp 1 (.cat (.quest (.ch (fun c => c == '"')))
      (.cat (plusC isPkgNameCh) (.quest (.ch (fun c => c == '"'))))))
    (.cat wsStar
      (.quest (.cat (lit ("as").data) (.cat wsPlus (.grp 2 (plusC isWordCh)))))))))

/-- The part pattern: name group, optional alias clause, colon, type group. -/
def partRE : RE :=
  .cat wsStar (.cat (lit ("part").data) (.cat wsPlus (.cat (.grp 1 (plusC isPartNameCh))
    (.cat wsStar (.cat
      (.quest (.cat (lit ("as").data) (.cat wsPlus (.grp 2 (plusC isWordCh)))))
      (.cat wsStar (.cat (.ch (fun c => c == ':'))
        (.cat wsStar (.grp 3 (plusC isWordCh))))))))))

/-- The description pattern: the keyword, an equals sign and a double quoted
text group. -/
def descRE : RE :=
  .cat wsStar (.cat (lit ("description").data) (.cat wsStar (.cat (.ch (fun c => c == '='))
    (.cat wsStar (.cat (.ch (fun c => c == '"'))
      (.cat (.grp 1 (.starC (fun c => !(c == '"')))) (.ch (fun c => c == '"'))))))))

/-- Match of the package pattern: returns the name group and optional alias. -/
def pkgMatch (l : List Char) : Option (List Char × Option (List Char)) :=
  match reMatch (namedDeclRE ("package")) l with
  | some caps =>
      match caps.g1 with
      | some g => some (g, caps.g2)
      | none => none
  | none => none

/-- Match of the part pattern: name group, optional alias, type group. -/
def partMatch (l : List Char) : Option (List Char × Option (List Char) × List Char) :=
  match reMatch partRE l with
  | some caps =>
      match caps.g1, caps.g3 with
      | some g, some t => some (g, caps.g2, t)
      | _, _ => none
  | none => none

/-- Match of the actor pattern: returns the name group and optional alias. -/
def actorMatch (l : List Char) : Option (List Char × Option (List Char)) :=
  match reMatch (namedDeclRE ("actor")) l with
  | some caps =>
      match caps.g1 with
      | some g => some (g, caps.g2)
      | none => none
  | none => none

/-- Match of the description pattern: returns the quoted text group. -/
def descMatch (l : List Char) : Option (List Char) :=
  match reMatch descRE l with
  | some caps => caps.g1
  | none => none

/- ## The IR node model

A Python node is a dictionary with the keys `type`, `name`, `alias`,
`description` and `parts`, each of which may be absent (or, for the name of
the dummy root, present with value `None`).  Both an absent key and a `None`
value are modelled by `none`. -/

/-- IR tree node: type, name, alias, description and the optional ordered
children slot.  `nparts = none` models a dictionary without the `parts` key;
`nparts = some l` models a `parts` list with elements `l`. -/
inductive Node where
  | mk : Option String → Option String → Option String → Option String →
      Option (List Node) → Node
deriving Repr

/-- The `type` entry of a node. -/
def Node.ntype : Node → Option String
  | .mk t _ _ _ _ => t

/-- The `name` entry of a node. -/
def Node.nname : Node → Option String
  | .mk _ n _ _ _ => n

/-- The `alias` entry of a node. -/
def Node.nalias : Node → Option String
  | .mk _ _ a _ _ => a

/-- The `description` entry of a node. -/
def Node.ndesc : Node → Option String
  | .mk _ _ _ d _ => d

/-- The `parts` entry of a node. -/
def Node.nparts : Node → Option (List Node)
  | .mk _ _ _ _ p => p

/-- The children of a node, the Python expression `node.get("parts", [])`. -/
def Node.kids (n : Node) : List Node := n.nparts.getD []

/-- The display name with empty default, the Python `node.get("name", "")`. -/
def nameget (n : Node) : String := n.nname.getD ("")

/-- Set the description entry of a node, overwriting any earlier value. -/
def Node.withDesc : Node → String → Node
  | .mk t n a _ p, d => .mk t n a (some d) p

/-- Append a child to the parts list of a parent, creating the slot when it is
missing: the Python `parent.setdefault("parts", []).append(child)`. -/
def attachChild (parent child : Node) : Node :=
  match parent with
  | .mk t n a d p => .mk t n a d (some (p.getD [] ++ [child]))

/-- The dummy root node of the parsers. -/
def rootNode : Node := Node.mk none none none none (some [])

/- ## The pure indentation parser (SysML2Mermaid.py and SysML2dot.py)

The Python parser mutates a tree through references kept on a scope stack.
The embedding keeps the stack as a zipper: each stack entry holds the
recorded indent and the node together with the children attached to it so
far; a child node is merged into its parent exactly when its scope is closed,
which reproduces the order of the in place appends of the source because a
parent can only gain entries while it is the top of the stack. -/

/-- Parser state: scope stack with the innermost entry first, the indent of
the previous non blank line, and the warning messages printed so far. -/
structure PSt where
  stack : List (Nat × Node)
  prev : Nat
  warns : List String
deriving Repr

/-- Tail recursive worker of the pop loop.  `(i, n)` is the current stack top
and the list is the rest of the stack; an entry is popped while the stack has
more than one entry and the top indent is at least `w`, the popped node being
merged into the entry below it. -/
def popGo (w : Nat) : Nat → Node → List (Nat × Node) → List (Nat × Node)
  | i, n, [] => [(i, n)]
  | i, n, (j, m) :: r =>
      if w ≤ i then popGo w j (attachChild m n) r else (i, n) :: (j, m) :: r

/-- The pop loop of the parsers:
`while len(stack) > 1 and stack[-1][0] >= indent: stack.pop()`. -/
def popScopes (w : Nat) : List (Nat × Node) → List (Nat × Node)
  | [] => []
  | (i, n) :: r => popGo w i n r

/-- The guarded stack adjustment of the pure indentation parsers: the pop
loop runs only under the test `indent <= prev_indent`. -/
def stepPop (w prevI : Nat) (s : List (Nat × Node)) : List (Nat × Node) :=
  if w ≤ prevI then popScopes w s else s

/-- Assign the description of the innermost open scope:
`stack[-1][1]["description"] = desc`. -/
def setTopDesc (d : String) : List (Nat × Node) → List (Nat × Node)
  | [] => []
  | (i, n) :: r => (i, n.withDesc d) :: r

/-- The part types that receive a children slot at creation. -/
def specialKinds : List String :=
  ["LogicalComponent", "LogicalFunction", "LogicalActor"]

/-- The text printed for an unrecognized line:
`print("Warning: Unhandled line:", line)`. -/
def warnMsg (line : String) : String :=
  "Warning: Unhandled line: " ++ line

/-- One iteration of the line loop of `parse_indented_model` in
SysML2Mermaid.py: skip blank lines, adjust the scope stack by indentation,
then classify the line against the four patterns in order. -/
def stepM (st : PSt) (line : String) : PSt :=
  let l := line.data
  if pyStripL l == [] then st
  else
    let w := indentOf l
    let s1 := stepPop w st.prev st.stack
    match pkgMatch l with
    | some (g1, al) =>
        let nm := String.mk (pyStripL (stripQuotesL g1))
        let node : Node :=
          .mk (some ("Package")) (some nm) (al.map String.mk) none (some [])
        ⟨(w, node) :: s1, w, st.warns⟩
    | none =>
      match partMatch l with
      | some (g1, al, g3) =>
          let nm := String.mk (pyStripL g1)
          let ptype := String.mk (pyStripL g3)
          let slot : Option (List Node) :=
            if specialKinds.contains ptype then some [] else none
          let node : Node := .mk (some ptype) (some nm) (al.map String.mk) none slot
          ⟨(w, node) :: s1, w, st.warns⟩
      | none =>
        match actorMatch l with
        | some (g1, al) =>
            let nm := String.mk (pyStripL (stripQuotesL g1))
            let node : Node :=
              .mk (some ("LogicalActor")) (some nm) (al.map String.mk) none none
            ⟨(w, node) :: s1, w, st.warns⟩
        | none =>
          match descMatch l with
          | some g1 =>
              ⟨setTopDesc (String.mk (pyStripL g1)) s1, w, st.warns⟩
          | none => ⟨s1, w, st.warns ++ [warnMsg line]⟩

/-- The initial parser state: the sentinel entry of the dummy root. -/
def initSt : PSt := ⟨[(0, rootNode)], 0, []⟩

/-- Merge the remaining open scopes at the end of the input; in the source
this happens implicitly because every node is already attached through the
mutated references. -/
def collapseGo : Node → List (Nat × Node) → Node
  | n, [] => n
  | n, (_, m) :: r => collapseGo (attachChild m n) r

/-- The final tree of a parser state. -/
def collapseStack : List (Nat × Node) → Node
  | [] => rootNode
  | (_, n) :: r => collapseGo n r

/-- Run the line loop of the Mermaid parser from the initial state. -/
def runM (lines : List String) : PSt :=
  lines.foldl stepM initSt

/-- `parse_indented_model` of SysML2Mermaid.py.  The returned pair holds the
tree and, as explicit data, the sequence of warning messages the source
prints on standard output. -/
def parseIndentedModelMermaid (text : String) : Node × List String :=
  let st := runM (splitLinesPy text)
  (collapseStack st.stack, st.warns)

/- ## The pure indentation parser of SysML2dot.py

The body of `parse_indented_model` in SysML2dot.py is the same, line for
line, as the one in SysML2Mermaid.py; it is transcribed here a second time as
its own definitions so that the equivalence of the two parsers can be stated
about two separate transcriptions. -/

/-- One iteration of the line loop of `parse_indented_model` in
SysML2dot.py. -/
def stepD (st : PSt) (line : String) : PSt :=
  let l := line.data
  if pyStripL l == [] then st
  else
    let w := indentOf l
    let s1 := stepPop w st.prev st.stack
    match pkgMatch l with
    | some (g1, al) =>
        let nm := String.mk (pyStripL (stripQuotesL g1))
        let node : Node :=
          .mk (some ("Package")) (some nm) (al.map String.mk) none (some [])
        ⟨(w, node) :: s1, w, st.warns⟩
    | none =>
      match partMatch l with
      | some (g1, al, g3) =>
          let nm := String.mk (pyStripL g1)
          let ptype := String.mk (pyStripL g3)
          let slot : Option (List Node) :=
            if specialKinds.contains ptype then some [] else none
          let node : Node := .mk (some ptype) (some nm) (al.map String.mk) none slot
          ⟨(w, node) :: s1, w, st.warns⟩
      | none =>
        match actorMatch l with
        | some (g1, al) =>
            let nm := String.mk (pyStripL (stripQuotesL g1))
            let node : Node :=
              .mk (some ("LogicalActor")) (some nm) (al.map String.mk) none none
            ⟨(w, node) :: s1, w, st.warns⟩
        | none =>
          match descMatch l with
          | some g1 =>
              ⟨setTopDesc (String.mk (pyStripL g1)) s1, w, st.warns⟩
          | none => ⟨s1, w, st.warns ++ [warnMsg line]⟩

/-- Run the line loop of the dot parser from the initial state. -/
def runD (lines : List String) : PSt :=
  lines.foldl stepD initSt

/-- `parse_indented_model` of SysML2dot.py, tree and printed warnings. -/
def parseIndentedModelDot (text : String) : Node × List String :=
  let st := runD (splitLinesPy text)
  (collapseStack st.stack, st.warns)

/- ## The brace variant parser of SysML2UML.py

This parser pops while the current indent is strictly smaller than the top
indent, pushes a package or part scope only when the line ends with an
opening brace (recording indent plus one), never pushes actors, silently
skips lines whose content is a single closing brace, and keeps names and
descriptions without the extra whitespace stripping of the other variant. -/

/-- Test whether `line.rstrip()` ends with an opening brace. -/
def endsWithBrace (l : List Char) : Bool :=
  match (dropTrail isPySpace l).getLast? with
  | some c => c == '\x7b'
  | none => false

/-- Worker of the UML pop loop `while stack and indent < stack[-1][0]`. -/
def popUGo (w : Nat) : Nat → Node → List (Nat × Node) → List (Nat × Node)
  | i, n, [] => if w < i then [] else [(i, n)]
  | i, n, (j, m) :: r =>
      if w < i then popUGo w j (attachChild m n) r else (i, n) :: (j, m) :: r

/-- The UML pop loop; unlike the other variant it is not guarded by a
comparison with the previous indent and uses a strict comparison. -/
def popUML (w : Nat) : List (Nat × Node) → List (Nat × Node)
  | [] => []
  | (i, n) :: r => popUGo w i n r

/-- Append a node to the children of the current innermost scope without
opening a new scope. -/
def appendToTop (child : Node) : List (Nat × Node) → List (Nat × Node)
  | [] => []
  | (i, n) :: r => (i, attachChild n child) :: r

/-- One iteration of the line loop of `parse_indented_model` in
SysML2UML.py. -/
def stepU (st : PSt) (line : String) : PSt :=
  let l := line.data
  if pyStripL l == [] then st
  else
    let w := indentOf l
    let s1 := popUML w st.stack
    match pkgMatch l with
    | some (g1, al) =>
        let nm := String.mk (stripQuotesL g1)
        let node : Node :=
          .mk (some ("Package")) (some nm) (al.map String.mk) none (some [])
        if endsWithBrace l then ⟨(w + 1, node) :: s1, st.prev, st.warns⟩
        else ⟨appendToTop node s1, st.prev, st.warns⟩
    | none =>
      match partMatch l with
      | some (g1, al, g3) =>
          let nm := String.mk g1
          let ptype := String.mk g3
          let slot : Option (List Node) :=
            if specialKinds.contains ptype then some [] else none
          let node : Node := .mk (some ptype) (some nm) (al.map String.mk) none slot
          if endsWithBrace l then ⟨(w + 1, node) :: s1, st.prev, st.warns⟩
          else ⟨appendToTop node s1, st.prev, st.warns⟩
      | none =>
        match actorMatch l with
        | some (g1, al) =>
            let nm := String.mk (stripQuotesL g1)
            let node : Node :=
              .mk (some ("LogicalActor")) (some nm) (al.map String.mk) none none
            ⟨appendToTop node s1, st.prev, st.warns⟩
        | none =>
          match descMatch l with
          | some g1 =>
              ⟨setTopDesc (String.mk g1) s1, st.prev, st.warns⟩
          | none =>
            if pyStripL l == ['\x7d'] then ⟨s1, st.prev, st.warns⟩
            else ⟨s1, st.prev, st.warns ++ [warnMsg line]⟩

/-- Run the line loop of the UML parser from the initial state. -/
def runU (lines : List String) : PSt :=
  lines.foldl stepU initSt

/-- `parse_indented_model` of SysML2UML.py, tree and printed warnings. -/
def parseIndentedModelUML (text : String) : Node × List String :=
  let st := runU (splitLinesPy text)
  (collapseStack st.stack, st.warns)

/- ## The Mermaid flowchart renderer (SysML2Mermaid.py) -/

/-- `html_label_two_compartment` of SysML2Mermaid.py. -/
def htmlLabelTwoCompartment (topText bottomText : String)
    (width topHeight bottomHeight : Nat) : String :=
  "<table border=\"1\" cellspacing=\"0\" cellpadding=\"2\">\n  <tr><td fixedsize=\"true\" width=\""
    ++ Nat.repr width ++ "\" height=\"" ++ Nat.repr topHeight
    ++ "\" align=\"center\">" ++ topText
    ++ "</td></tr>\n  <tr><td fixedsize=\"true\" width=\"" ++ Nat.repr width
    ++ "\" height=\"" ++ Nat.repr bottomHeight ++ "\" align=\"center\">"
    ++ bottomText ++ "</td></tr>\n</table>"

/-- `html_label_bottom_only` of SysML2Mermaid.py. -/
def htmlLabelBottomOnly (text : String) (width topHeight bottomHeight : Nat) : String :=
  "<table border=\"1\" cellspacing=\"0\" cellpadding=\"2\">\n  <tr><td fixedsize=\"true\" width=\""
    ++ Nat.repr width ++ "\" height=\"" ++ Nat.repr topHeight
    ++ "\" align=\"center\"></td></tr>\n  <tr><td fixedsize=\"true\" width=\""
    ++ Nat.repr width ++ "\" height=\"" ++ Nat.repr bottomHeight
    ++ "\" align=\"center\">" ++ text ++ "</td></tr>\n</table>"

/-- Mermaid node identifier: the display name with spaces replaced by
underscores. -/
def mermaidId (name : String) : String :=
  String.mk (name.data.map (fun c => if c == ' ' then '_' else c))

/-- Indentation of the emitted Mermaid lines, four spaces per level. -/
def levelSpacing (level : Nat) : String :=
  String.mk (List.replicate (4 * level) ' ')

mutual
/-- `process_node` of `build_mermaid_flowchart_from_tree`: the emitted lines
of one node.  After the branch on the node type the source runs a second
child loop unconditionally, which re-emits the children of a package after
the closing `end` line. -/
def processNode : Node → Nat → List String
  | .mk t n _ d p, level =>
      let spacing := levelSpacing level
      let nodeId := mermaidId (n.getD (""))
      let nm := n.getD ("")
      let main : List String :=
        if t == some ("Package") then
          (spacing ++ "subgraph " ++ nodeId ++ "[" ++ nm ++ "]")
            :: processParts p (level + 1) ++ [spacing ++ "end"]
        else if t == some ("LogicalFunction") then
          [spacing ++ nodeId ++ "["
            ++ htmlLabelTwoCompartment nm (d.getD ("")) 120 15 30 ++ "]"]
        else if t == some ("LogicalComponent") || t == some ("LogicalActor") then
          [spacing ++ nodeId ++ "[" ++ htmlLabelBottomOnly nm 150 10 40 ++ "]"]
        else
          [spacing ++ nodeId ++ "[" ++ nm ++ "]"]
      main ++ processParts p (level + 1)

/-- Child loop of `process_node` over an optional parts list. -/
def processParts : Option (List Node) → Nat → List String
  | none, _ => []
  | some l, level => processList l level

/-- Child loop of `process_node` over a child list. -/
def processList : List Node → Nat → List String
  | [], _ => []
  | x :: xs, level => processNode x level ++ processList xs level
end

/-- The emitted line list of `build_mermaid_flowchart_from_tree`. -/
def buildMermaidLines (tree : Node) : List String :=
  "flowchart TD" :: processParts tree.nparts 1

/-- `build_mermaid_flowchart_from_tree` of SysML2Mermaid.py. -/
def buildMermaidFlowchartFromTree (tree : Node) : String :=
  String.intercalate ("\n") (buildMermaidLines tree)

/- ## The PlantUML containment renderer (SysML2UML.py) -/

/-- `format_element` of `build_plantuml_from_tree`. -/
def formatElement (name : String) (al : Option String) : String :=
  "\"" ++ name ++ "\"" ++ (match al with | some a => " as " ++ a | none => "")

/-- The functions group test of `reorder_children`: the stripped display name
begins with the literal DroneFunctions. -/
def dfStart (c : Node) : Bool :=
  startsWithPy (pyStripStr (nameget c)) "DroneFunctions"

/-- `reorder_children` of `build_plantuml_from_tree`: the functions group
first, all other children after, both in their original order. -/
def reorderChildren (children : List Node) : List Node :=
  children.filter dfStart ++ children.filter (fun c => !(dfStart c))

/-- The reorder test of `generate_plantuml`: a package whose stripped display
name begins with the literal DroneDevelopment. -/
def ddTest (nm : Option String) : Bool :=
  startsWithPy (pyStripStr (nm.getD (""))) "DroneDevelopment"

mutual
/-- `generate_plantuml` of `build_plantuml_from_tree`: the emitted lines of
one node.  The children of the one designated package are rendered as the
functions group followed by the rest, which is the same emission the source
performs after calling `reorder_children`; all other containers render their
children in declaration order. -/
def generatePlantuml : Node → Nat → List String
  | .mk t nm a d p, i =>
      let indStr := String.mk (List.replicate (4 * i) ' ')
      if t == some ("Package") then
        let openLine :=
          match a with
          | some al => indStr ++ "package " ++ formatElement (nm.getD ("")) (some al) ++ " \x7b"
          | none => indStr ++ "package \"" ++ nm.getD ("") ++ "\" \x7b"
        let body :=
          if ddTest nm then
            genPartsIf dfStart p (i + 1)
              ++ genPartsIf (fun c => !(dfStart c)) p (i + 1)
          else genParts p (i + 1)
        openLine :: body ++ [indStr ++ "\x7d"]
      else if t == some ("LogicalComponent") then
        let text := formatElement (nm.getD ("")) a ++ " <<logicalComponent>>"
        if !(p.getD []).isEmpty then
          (indStr ++ "rectangle " ++ text ++ " \x7b")
            :: genParts p (i + 1) ++ [indStr ++ "\x7d"]
        else [indStr ++ "rectangle " ++ text]
      else if t == some ("LogicalFunction") then
        let text := formatElement (nm.getD ("")) a ++ " <<logicalFunction>>"
        [indStr ++ "class " ++ text ++ " \x7b",
         indStr ++ "    description = \"" ++ d.getD ("") ++ "\"",
         indStr ++ "\x7d"]
      else if t == some ("LogicalActor") then
        [indStr ++ "rectangle " ++ formatElement (nm.getD ("")) a ++ " <<logicalActor>>"]
      else
        [indStr ++ "package \"" ++ nm.getD ("") ++ "\""]

/-- Child loop of `generate_plantuml` over an optional parts list. -/
def genParts : Option (List Node) → Nat → List String
  | none, _ => []
  | some l, i => genPlantList l i

/-- Child loop of `generate_plantuml` over a child list. -/
def genPlantList : List Node → Nat → List String
  | [], _ => []
  | x :: xs, i => generatePlantuml x i ++ genPlantList xs i

/-- Child loop of `generate_plantuml` restricted to the children selected by
a predicate, in their original order: the fused form of rendering one of the
two groups `reorder_children` builds. -/
def genPartsIf : (Node → Bool) → Option (List Node) → Nat → List String
  | _, none, _ => []
  | q, some l, i => genPlantListIf q l i

/-- List worker of `genPartsIf`. -/
def genPlantListIf : (Node → Bool) → List Node → Nat → List String
  | _, [], _ => []
  | q, x :: xs, i =>
      (if q x then generatePlantuml x i else []) ++ genPlantListIf q xs i
end

/-- The separator comment rows of the PlantUML preamble: an apostrophe
followed by fifty equals signs. -/
def eqSeparator : String :=
  "\x27" ++ String.mk (List.replicate 50 '=')

/-- The fixed styling preamble of `build_plantuml_from_tree`. -/
def plantHeader : List String :=
  ["@startuml",
   eqSeparator,
   "\x27 Define Profile Styles with Stereotypes",
   eqSeparator,
   "",
   "allowmixing",
   "\x27 Class for Logical Functions with custom formatting",
   "skinparam class \x7b",
   "  BackgroundColor<<logicalFunction>> LightGreen",
   "  BorderColor<<logicalFunction>> DarkGreen",
   "  FontStyle<<logicalFunction>> Bold",
   "  FontColor<<logicalFunction>> Black",
   "\x7d",
   "",
   "\x27 Rectangle for Logical Components",
   "skinparam rectangle \x7b",
   "  BackgroundColor<<logicalComponent>> LightSteelBlue",
   "  BorderColor<<logicalComponent>> DarkBlue",
   "  FontStyle<<logicalComponent>> Bold",
   "  FontColor<<logicalComponent>> Black",
   "\x7d",
   "",
   "\x27 Rectangle for Logical Actors",
   "skinparam rectangle \x7b",
   "  BackgroundColor<<logicalActor>> LightBlue",
   "  BorderColor<<logicalActor>> Blue",
   "  FontStyle<<logicalActor>> Bold",
   "  FontColor<<logicalactor>> Black",
   "\x7d",
   "",
   eqSeparator,
   "\x27 Generated SysML Diagram",
   eqSeparator]

/-- The emitted line list of `build_plantuml_from_tree`. -/
def buildPlantumlLines (tree : Node) : List String :=
  plantHeader ++ genParts tree.nparts 0 ++ ["@enduml"]

/-- `build_plantuml_from_tree` of SysML2UML.py. -/
def buildPlantumlFromTree (tree : Node) : String :=
  String.intercalate ("\n") (buildPlantumlLines tree)

/- ## The Graphviz DOT cluster renderer (SysML2dot.py) -/

/-- `html_label_two_compartment` of SysML2dot.py. -/
def htmlLabelTwoCompartmentDot (topText bottomText : String)
    (width topHeight bottomHeight : Nat) : String :=
  "<<TABLE BORDER=\"0\" CELLBORDER=\"1\" CELLSPACING=\"0\" CELLPADDING=\"2\">\n  <TR><TD FIXEDSIZE=\"true\" WIDTH=\""
    ++ Nat.repr width ++ "\" HEIGHT=\"" ++ Nat.repr topHeight
    ++ "\" ALIGN=\"CENTER\">" ++ topText
    ++ "</TD></TR>\n  <TR><TD FIXEDSIZE=\"true\" WIDTH=\"" ++ Nat.repr width
    ++ "\" HEIGHT=\"" ++ Nat.repr bottomHeight ++ "\" ALIGN=\"CENTER\">"
    ++ bottomText ++ "</TD></TR>\n</TABLE>>"

/-- `html_label_bottom_only` of SysML2dot.py. -/
def htmlLabelBottomOnlyDot (text : String) (width topHeight bottomHeight : Nat) : String :=
  "<<TABLE BORDER=\"0\" CELLBORDER=\"1\" CELLSPACING=\"0\" CELLPADDING=\"2\">\n  <TR><TD FIXEDSIZE=\"true\" WIDTH=\""
    ++ Nat.repr width ++ "\" HEIGHT=\"" ++ Nat.repr topHeight
    ++ "\" ALIGN=\"CENTER\"></TD></TR>\n  <TR><TD FIXEDSIZE=\"true\" WIDTH=\""
    ++ Nat.repr width ++ "\" HEIGHT=\"" ++ Nat.repr bottomHeight
    ++ "\" ALIGN=\"CENTER\">" ++ text ++ "</TD></TR>\n</TABLE>>"

/-- A generated identifier: `next_id` increments the counter and renders it
after the fixed id stem. -/
def nextIdStr (c : Nat) : String := "id" ++ Nat.repr c

mutual
/-- `generate_dot` of `build_dot_from_tree`: given the node, the emission
indent and the counter value, return the representative node identifier, the
emitted lines and the new counter value.  The counter is bumped twice per
node, once for the cluster identifier and once for the representative
node. -/
def genDot : Node → Nat → Nat → String × List String × Nat
  | .mk t n _ d p, ind, cnt =>
      let spacing := String.mk (List.replicate ind ' ')
      let clusterId := "cluster_" ++ nextIdStr (cnt + 1)
      let repNode := nextIdStr (cnt + 2)
      let headLine := spacing ++ "subgraph " ++ clusterId ++ " \x7b"
      if t == some ("LogicalFunction") then
        let label := htmlLabelTwoCompartmentDot (n.getD ("")) (d.getD ("")) 120 15 30
        (repNode,
         [headLine,
          spacing ++ "    " ++ repNode
            ++ " [shape=none, style=filled, fillcolor=lightgreen, label=" ++ label ++ "];",
          spacing ++ "\x7d"],
         cnt + 2)
      else if t == some ("LogicalComponent") then
        if !(p.getD []).isEmpty then
          let inner := genDotParts p (ind + 4) (cnt + 2)
          (repNode,
           headLine
             :: (spacing ++ "    label = \"" ++ n.getD ("") ++ "\";")
             :: (spacing ++ "    style=filled;")
             :: (spacing ++ "    fillcolor=lightblue;")
             :: (spacing ++ "    margin=10;")
             :: (spacing ++ "    " ++ repNode ++ " [shape=none, label=\"\"];")
             :: inner.1 ++ [spacing ++ "\x7d"],
           inner.2)
        else
          let label := htmlLabelBottomOnlyDot (n.getD ("")) 150 10 40
          (repNode,
           [headLine,
            spacing ++ "    " ++ repNode
              ++ " [shape=none, style=filled, fillcolor=lightblue, label=" ++ label ++ "];",
            spacing ++ "\x7d"],
           cnt + 2)
      else if t == some ("LogicalActor") then
        let label := htmlLabelBottomOnlyDot (n.getD ("")) 120 10 40
        (repNode,
         [headLine,
          spacing ++ "    " ++ repNode
            ++ " [shape=none, style=filled, fillcolor=lightblue, fixedsize=true, label="
            ++ label ++ "];",
          spacing ++ "\x7d"],
         cnt + 2)
      else if t == some ("Package") then
        let inner := genDotParts p (ind + 4) (cnt + 2)
        (repNode,
         headLine
           :: (spacing ++ "    label = \"" ++ n.getD ("") ++ "\";")
           :: (spacing ++ "    " ++ repNode ++ " [shape=none, label=\"\"];")
           :: inner.1 ++ [spacing ++ "\x7d"],
         inner.2)
      else
        (repNode,
         [headLine,
          spacing ++ "    " ++ repNode ++ " [label=\"" ++ n.getD ("") ++ "\"];",
          spacing ++ "\x7d"],
         cnt + 2)

/-- Child loop of `generate_dot` over an optional parts list. -/
def genDotParts : Option (List Node) → Nat → Nat → List String × Nat
  | none, _, cnt => ([], cnt)
  | some l, ind, cnt => genDotList l ind cnt

/-- Child loop of `generate_dot` over a child list, threading the counter;
the representative identifiers of the children are dropped, as in the
source. -/
def genDotList : List Node → Nat → Nat → List String × Nat
  | [], _, cnt => ([], cnt)
  | x :: xs, ind, cnt =>
      let r := genDot x ind cnt
      let rest := genDotList xs ind r.2.2
      (r.2.1 ++ rest.1, rest.2)
end

/-- The fixed header lines of `build_dot_from_tree`. -/
def dotHeader : List String :=
  ["digraph G \x7b",
   "    graph [layout=osage, splines=ortho, rankdir=TB, compound=true, size=\"8,4!\", ratio=0.5, stylesheet=\"mystyle.css\"];",
   "    node [fontname=\"Helvetica\", fontsize=10];",
   ""]

/-- The top level child loop of `build_dot_from_tree`: renders each child,
remembering the representative identifiers of the top level children named
DroneFunctions and DroneLogicalArchitecture (an elif chain, so a child
matching the first name is not tested against the second). -/
def dotTopGo : List Node → Nat → Option String → Option String →
    Option String × Option String × List String × Nat
  | [], cnt, tf, ta => (tf, ta, [], cnt)
  | x :: xs, cnt, tf, ta =>
      let r := genDot x 4 cnt
      let nm := pyStripStr (nameget x)
      let tf2 := if nm == "DroneFunctions" then some r.1 else tf
      let ta2 :=
        if nm == "DroneFunctions" then ta
        else if nm == "DroneLogicalArchitecture" then some r.1 else ta
      let rest := dotTopGo xs r.2.2 tf2 ta2
      (rest.1, rest.2.1, r.2.1 ++ rest.2.2.1, rest.2.2.2)

/-- The invisible ordering edge, emitted when both representative
identifiers were recorded; a recorded identifier is a nonempty string, so
the Python truthiness test coincides with the option being set. -/
def invisEdge (tf ta : Option String) : List String :=
  match tf, ta with
  | some f, some a => ["    " ++ f ++ " -> " ++ a ++ " [style=invis];"]
  | _, _ => []

/-- The emitted line list of `build_dot_from_tree` together with the final
counter value; the counter argument is the value the local counter is
initialized with, which the source fixes to zero at the start of every
call. -/
def buildDotLines (tree : Node) (cnt0 : Nat) : List String × Nat :=
  let r := dotTopGo tree.kids cnt0 none none
  (dotHeader ++ r.2.2.1 ++ invisEdge r.1 r.2.1 ++ ["\x7d"], r.2.2.2)

/-- `build_dot_from_tree` of SysML2dot.py viewed as a transformer of an
ambient counter state: the call begins by resetting the counter to zero
(`node_counter = 0` in the source), so the incoming state is ignored. -/
def buildDotFromTreeSt (tree : Node) (_incoming : Nat) : String × Nat :=
  let r := buildDotLines tree 0
  (String.intercalate ("\n") r.1, r.2)

/-- `build_dot_from_tree` of SysML2dot.py. -/
def buildDotFromTree (tree : Node) : String :=
  (buildDotFromTreeSt tree 0).1

/-- The Mermaid renderer viewed as a transformer of the ambient counter
state: it uses no counter at all, so the state passes through unchanged. -/
def buildMermaidSt (tree : Node) (incoming : Nat) : String × Nat :=
  (buildMermaidFlowchartFromTree tree, incoming)

/-- The PlantUML renderer viewed as a transformer of the ambient counter
state: it uses no counter at all, so the state passes through unchanged. -/
def buildPlantumlSt (tree : Node) (incoming : Nat) : String × Nat :=
  (buildPlantumlFromTree tree, incoming)

/- ## Predicates and observations used by the theorems -/

/-- A non blank line that matches none of the four declaration patterns. -/
def isUnhandled (line : String) : Bool :=
  !(pyStripL line.data == []) && (pkgMatch line.data).isNone
    && (partMatch line.data).isNone && (actorMatch line.data).isNone
    && (descMatch line.data).isNone

/-- The recorded indent of the innermost stack entry. -/
def headIdt : List (Nat × Node) → Nat
  | [] => 0
  | f :: _ => f.1

/-- The recorded indent of the bottom stack entry, the sentinel slot. -/
def lastIdt : List (Nat × Node) → Nat
  | [] => 0
  | [f] => f.1
  | _ :: f :: r => lastIdt (f :: r)

/-- The state invariant of the pure indentation parsers: the stack is never
empty, the innermost recorded indent never exceeds the previous line indent,
and the bottom entry still records indent zero. -/
def stackInv (σ : PSt) : Prop :=
  σ.stack ≠ [] ∧ headIdt σ.stack ≤ σ.prev ∧ lastIdt σ.stack = 0

/-- A string without a dash character.  No fixed fragment of the DOT
renderer contains a dash, so on a tree whose names and descriptions are dash
free the one dashed output line can only be the invisible ordering edge. -/
def noDash (s : String) : Bool :=
  !(s.data.any (fun c => c == '-'))

mutual
/-- Every name and description in the tree is dash free. -/
def cleanN : Node → Bool
  | .mk _ n _ d p => noDash (n.getD ("")) && noDash (d.getD ("")) && cleanP p

/-- Tree cleanliness through an optional parts list. -/
def cleanP : Option (List Node) → Bool
  | none => true
  | some l => cleanL l

/-- Tree cleanliness through a child list. -/
def cleanL : List Node → Bool
  | [] => true
  | x :: xs => cleanN x && cleanL xs
end

/-- Presence test of a stripped top level child name, the accumulator update
of the top level loop of `build_dot_from_tree`. -/
def hasTopName (t : Node) (s : String) : Prop :=
  ∃ c ∈ t.kids, nameget c = s

instance (t : Node) (s : String) : Decidable (hasTopName t s) := by
  unfold hasTopName; infer_instance

/- ## Warnings bookkeeping of the pure indentation parser -/

/-- One step changes the warning list exactly when the line is non blank and
matches none of the four patterns, appending the printed message. -/
theorem stepM_warns (σ : PSt) (line : String) :
    (stepM σ line).warns =
      σ.warns ++ (if isUnhandled line then [warnMsg line] else []) := by
  unfold stepM isUnhandled
  cases hb : pyStripL line.data == []
  case true => simp [hb]
  case false =>
    cases hp : pkgMatch line.data
    case some v => obtain ⟨g1, al⟩ := v; simp [hb, hp]
    case none =>
      cases hq : partMatch line.data
      case some v => obtain ⟨g1, v2⟩ := v; obtain ⟨al, g3⟩ := v2; simp [hb, hp, hq]
      case none =>
        cases hr : actorMatch line.data
        case some v => obtain ⟨g1, al⟩ := v; simp [hb, hp, hq, hr]
        case none =>
          cases hs : descMatch line.data
          case some g => simp [hb, hp, hq, hr, hs]
          case none => simp [hb, hp, hq, hr, hs]

/-- Accumulated warnings of a run: one message per unhandled line, in input
order, independent of the scope stack. -/
theorem runFold_warns (ls : List String) : ∀ σ : PSt,
    (ls.foldl stepM σ).warns = σ.warns ++ (ls.filter isUnhandled).map warnMsg := by
  induction ls with
  | nil => intro σ; simp
  | cons l ls ih =>
      intro σ
      rw [List.foldl_cons, ih, stepM_warns, List.filter_cons]
      cases h : isUnhandled l <;> simp [h]

/-- C1, corrected part: for every input, the diagnostics of the Tree Builder
are exactly one message per non blank line that matches none of the four
patterns, in input order, and their count equals the count of such lines.
The message text carries the printed prefix of the source,
`Warning: Unhandled line: ` followed by the original line. -/
theorem c1_diagnostics (text : String) :
    (parseIndentedModelMermaid text).2 =
      ((splitLinesPy text).filter isUnhandled).map warnMsg ∧
    ((parseIndentedModelMermaid text).2).length =
      (splitLinesPy text).countP isUnhandled := by
  have h := runFold_warns (splitLinesPy text) initSt
  refine ⟨?_, ?_⟩
  · simpa [parseIndentedModelMermaid, runM, initSt] using h
  · simp only [parseIndentedModelMermaid, runM]
    rw [h]
    simp [initSt, List.countP_eq_length_filter]

/-- C1, counterexample to the claim as stated: on the single unhandled line
`zzz` the emitted diagnostic is `Warning: Unhandled line: zzz`, not the
claimed text `Unhandled line: zzz`, so the warnings sequence contains zero
occurrences of the claimed diagnostic; moreover the source prints the
message instead of returning it, which the embedding records as the second
component of the result. -/
theorem c1_counterexample :
    (parseIndentedModelMermaid ("zzz")).2 = ["Warning: Unhandled line: zzz"] ∧
    ((parseIndentedModelMermaid ("zzz")).2).count ("Unhandled line: zzz") = 0 :=
  ⟨rfl, rfl⟩

/-- C10: the pure indentation parser of the flowchart module and the pure
indentation parser of the cluster graph module are extensionally equal: on
every input text the two transcriptions return the same tree and the same
warnings, their sources being identical line for line. -/
theorem c10_parsers_agree (text : String) :
    parseIndentedModelMermaid text = parseIndentedModelDot text := rfl

/-- C9: each renderer, viewed as a transformer of the ambient identifier
counter state, produces the same output text when invoked a second time on
the state left by the first call: the DOT renderer resets its counter to
zero at the start of every call and the other two renderers use no counter
at all. -/
theorem c9_render_idempotent (t : Node) (c : Nat) :
    (buildDotFromTreeSt t (buildDotFromTreeSt t c).2).1 = (buildDotFromTreeSt t c).1 ∧
    (buildMermaidSt t (buildMermaidSt t c).2).1 = (buildMermaidSt t c).1 ∧
    (buildPlantumlSt t (buildPlantumlSt t c).2).1 = (buildPlantumlSt t c).1 :=
  ⟨rfl, rfl, rfl⟩

/-- C3, code bug evidence: on a tree with one package `P` holding one child
`X` of a generic kind, the flowchart renderer emits the child line twice,
once inside the subgraph block and once again after the closing `end` line,
because the source runs its child loop a second time after the per kind
branch; the claim expects each child exactly once. -/
theorem c3_package_children_twice :
    buildMermaidLines (Node.mk none none none none (some
      [Node.mk (some ("Package")) (some ("P")) none none (some
        [Node.mk (some ("T")) (some ("X")) none none none])])) =
      ["flowchart TD", "    subgraph P[P]", "        X[X]", "    end", "        X[X]"] ∧
    (buildMermaidLines (Node.mk none none none none (some
      [Node.mk (some ("Package")) (some ("P")) none none (some
        [Node.mk (some ("T")) (some ("X")) none none none])]))).count ("        X[X]") = 2 :=
  ⟨rfl, rfl⟩

/- ## Scope stack lemmas -/

/-- The sentinel indent ignores the node stored next to it. -/
theorem lastIdt_nodeIrrel (j : Nat) (x y : Node) (r : List (Nat × Node)) :
    lastIdt ((j, x) :: r) = lastIdt ((j, y) :: r) := by
  cases r <;> rfl

/-- The sentinel indent of a stack with a non empty tail ignores the top. -/
theorem lastIdt_cons {i : Nat} {n : Node} {r : List (Nat × Node)} (h : r ≠ []) :
    lastIdt ((i, n) :: r) = lastIdt r := by
  cases r with
  | nil => exact absurd rfl h
  | cons f r2 => rfl

/-- A singleton stack has equal top and sentinel indents. -/
theorem headIdt_eq_lastIdt_of_len_one {s : List (Nat × Node)} (h : s.length = 1) :
    headIdt s = lastIdt s := by
  match s, h with
  | [f], _ => rfl

/-- The pop loop never empties the stack. -/
theorem popGo_ne_nil (w : Nat) :
    ∀ (r : List (Nat × Node)) (i : Nat) (n : Node), popGo w i n r ≠ [] := by
  intro r
  induction r with
  | nil => intro i n; simp [popGo]
  | cons f r ih =>
      intro i n
      obtain ⟨j, m⟩ := f
      unfold popGo
      split
      · exact ih j (attachChild m n)
      · simp

/-- After the pop loop the stack is a singleton or its top indent is below
the current width. -/
theorem popGo_head_or (w : Nat) :
    ∀ (r : List (Nat × Node)) (i : Nat) (n : Node),
      (popGo w i n r).length = 1 ∨ headIdt (popGo w i n r) < w := by
  intro r
  induction r with
  | nil => intro i n; left; rfl
  | cons f r ih =>
      intro i n
      obtain ⟨j, m⟩ := f
      unfold popGo
      split
      · exact ih j (attachChild m n)
      case isFalse h => exact Or.inr (by simpa [headIdt] using Nat.lt_of_not_le h)

/-- The pop loop preserves the sentinel indent. -/
theorem popGo_last (w : Nat) :
    ∀ (r : List (Nat × Node)) (i : Nat) (n : Node),
      lastIdt (popGo w i n r) = lastIdt ((i, n) :: r) := by
  intro r
  induction r with
  | nil => intro i n; rfl
  | cons f r ih =>
      intro i n
      obtain ⟨j, m⟩ := f
      unfold popGo
      split
      · rw [ih j (attachChild m n), lastIdt_nodeIrrel j (attachChild m n) m r]
        exact (lastIdt_cons (by simp)).symm
      · rfl

/-- The pop loop does nothing when the top indent is already below the
width. -/
theorem popGo_noop {w i : Nat} (n : Node) (r : List (Nat × Node)) (h : ¬ w ≤ i) :
    popGo w i n r = (i, n) :: r := by
  cases r with
  | nil => rfl
  | cons f r2 => obtain ⟨j, m⟩ := f; unfold popGo; rw [if_neg h]

/-- `popScopes` never empties a non empty stack. -/
theorem popScopes_ne_nil {s : List (Nat × Node)} (w : Nat) (h : s ≠ []) :
    popScopes w s ≠ [] := by
  cases s with
  | nil => exact absurd rfl h
  | cons f r => obtain ⟨i, n⟩ := f; exact popGo_ne_nil w r i n

/-- After `popScopes` the stack is a singleton or its top indent is strictly
below the width: the new node attaches to the nearest still open ancestor
with a strictly smaller recorded indent, or to the sentinel root. -/
theorem popScopes_head_or {s : List (Nat × Node)} (w : Nat) (h : s ≠ []) :
    (popScopes w s).length = 1 ∨ headIdt (popScopes w s) < w := by
  cases s with
  | nil => exact absurd rfl h
  | cons f r => obtain ⟨i, n⟩ := f; exact popGo_head_or w r i n

/-- `popScopes` preserves the sentinel indent. -/
theorem popScopes_last (w : Nat) (s : List (Nat × Node)) :
    lastIdt (popScopes w s) = lastIdt s := by
  cases s with
  | nil => rfl
  | cons f r => obtain ⟨i, n⟩ := f; exact popGo_last w r i n

/-- `popScopes` does nothing when the top indent is already below the
width. -/
theorem popScopes_noop {s : List (Nat × Node)} {w : Nat} (h : headIdt s < w) :
    popScopes w s = s := by
  cases s with
  | nil => rfl
  | cons f r =>
      obtain ⟨i, n⟩ := f
      exact popGo_noop n r (Nat.not_le.mpr (by simpa [headIdt] using h))

/-- Under the parser invariant the guard `indent <= prev_indent` of the
source is redundant: the guarded stack adjustment equals the bare pop
loop. -/
theorem stepPop_eq_popScopes {s : List (Nat × Node)} {prevI : Nat} (w : Nat)
    (h2 : headIdt s ≤ prevI) :
    stepPop w prevI s = popScopes w s := by
  unfold stepPop
  split
  · rfl
  case isFalse hgt =>
    exact (popScopes_noop (lt_of_le_of_lt h2 (Nat.lt_of_not_le hgt))).symm

/-- The stack adjustment preserves the invariant components relative to the
new width. -/
theorem stepPop_inv {s : List (Nat × Node)} {prevI : Nat} (w : Nat)
    (h1 : s ≠ []) (h2 : headIdt s ≤ prevI) (h3 : lastIdt s = 0) :
    stepPop w prevI s ≠ [] ∧ headIdt (stepPop w prevI s) ≤ w ∧
      lastIdt (stepPop w prevI s) = 0 := by
  rw [stepPop_eq_popScopes w h2]
  refine ⟨popScopes_ne_nil w h1, ?_, by rw [popScopes_last]; exact h3⟩
  rcases popScopes_head_or w h1 with hlen | hlt
  · rw [headIdt_eq_lastIdt_of_len_one hlen, popScopes_last]
    omega
  · exact Nat.le_of_lt hlt

/-- `setTopDesc` keeps emptiness, the top indent and the sentinel indent. -/
theorem setTopDesc_shape (d : String) (s : List (Nat × Node)) :
    (setTopDesc d s = [] ↔ s = []) ∧ headIdt (setTopDesc d s) = headIdt s ∧
      lastIdt (setTopDesc d s) = lastIdt s := by
  cases s with
  | nil => exact ⟨Iff.rfl, rfl, rfl⟩
  | cons f r =>
      obtain ⟨i, n⟩ := f
      refine ⟨by simp [setTopDesc], rfl, ?_⟩
      exact lastIdt_nodeIrrel i (n.withDesc d) n r

/-- One parser step preserves the state invariant. -/
theorem stepM_inv (σ : PSt) (line : String) (h : stackInv σ) :
    stackInv (stepM σ line) := by
  obtain ⟨h1, h2, h3⟩ := h
  unfold stepM stackInv
  cases hb : pyStripL line.data == []
  case true =>
    simp only [hb, if_true]
    exact ⟨h1, h2, h3⟩
  case false =>
    simp only [hb, Bool.false_eq_true, if_false]
    obtain ⟨g1, g2, g3⟩ := stepPop_inv (indentOf line.data) h1 h2 h3
    cases hp : pkgMatch line.data
    case some v =>
      obtain ⟨ga, al⟩ := v
      simp only [hp]
      exact ⟨by simp, by simp [headIdt],
        by rw [lastIdt_cons g1]; exact g3⟩
    case none =>
      cases hq : partMatch line.data
      case some v =>
        obtain ⟨ga, v2⟩ := v; obtain ⟨al, gt⟩ := v2
        simp only [hp, hq]
        exact ⟨by simp, by simp [headIdt],
          by rw [lastIdt_cons g1]; exact g3⟩
      case none =>
        cases hr : actorMatch line.data
        case some v =>
          obtain ⟨ga, al⟩ := v
          simp only [hp, hq, hr]
          exact ⟨by simp, by simp [headIdt],
            by rw [lastIdt_cons g1]; exact g3⟩
        case none =>
          cases hs : descMatch line.data
          case some g =>
            simp only [hp, hq, hr, hs]
            obtain ⟨e1, e2, e3⟩ :=
              setTopDesc_shape (String.mk (pyStripL g))
                (stepPop (indentOf line.data) σ.prev σ.stack)
            exact ⟨fun hh => g1 (e1.mp hh), by rw [e2]; exact g2, by rw [e3]; exact g3⟩
          case none =>
            simp only [hp, hq, hr, hs]
            exact ⟨g1, g2, g3⟩

/-- The invariant holds after any run of the pure indentation parser. -/
theorem runM_inv (ls : List String) : stackInv (runM ls) := by
  have hstep : ∀ (l2 : List String) (σ : PSt), stackInv σ → stackInv (l2.foldl stepM σ) := by
    intro l2
    induction l2 with
    | nil => intro σ hσ; exact hσ
    | cons x xs ih => intro σ hσ; exact ih (stepM σ x) (stepM_inv σ x hσ)
  exact hstep ls initSt (by refine ⟨by simp [initSt], ?_, ?_⟩ <;> simp [initSt, headIdt, lastIdt])

/-- C2: at every state the pure indentation parser reaches, and for every
line width `w`, the stack adjustment of the source (the pop loop guarded by
the comparison with the previous indent) pops entries exactly while the
stack has more than one entry and the top recorded indent is at least `w`
(the unguarded loop `popScopes`); afterwards the stack is a singleton or its
top recorded indent is strictly below `w`, so the line attaches to the
nearest still open ancestor with a strictly smaller recorded indent; the pop
loop closes every deeper or equal scope whatever widths were recorded, and
the sentinel root entry with recorded indent zero is never popped. -/
theorem c2_indentation_tracker (ls : List String) (w : Nat) :
    (runM ls).stack ≠ [] ∧
    stepPop w (runM ls).prev (runM ls).stack = popScopes w (runM ls).stack ∧
    ((popScopes w (runM ls).stack).length = 1 ∨
      headIdt (popScopes w (runM ls).stack) < w) ∧
    popScopes w (runM ls).stack ≠ [] ∧
    lastIdt (popScopes w (runM ls).stack) = 0 := by
  obtain ⟨h1, h2, h3⟩ := runM_inv ls
  exact ⟨h1, stepPop_eq_popScopes w h2, popScopes_head_or w h1,
    popScopes_ne_nil w h1, by rw [popScopes_last]; exact h3⟩

/- ## Step characterizations for the unrecognized, description and part
branches -/

/-- Bool form of a non blank hypothesis. -/
theorem blankTest_false {line : String} (h5 : pyStripL line.data ≠ []) :
    (pyStripL line.data == []) = false := by
  cases hc : pyStripL line.data == []
  · rfl
  · exact absurd (eq_of_beq hc) h5

/-- C5, amended part: a non blank line matching none of the four patterns
creates no node and opens no scope, and appends exactly one diagnostic; but
it still drives the indentation pop loop and updates the previous indent, so
a dedented unrecognized line closes every scope with recorded indent at
least its own width. -/
theorem c5_unrecognized_step (σ : PSt) (line : String)
    (h1 : pkgMatch line.data = none) (h2 : partMatch line.data = none)
    (h3 : actorMatch line.data = none) (h4 : descMatch line.data = none)
    (h5 : pyStripL line.data ≠ []) :
    stepM σ line =
      ⟨stepPop (indentOf line.data) σ.prev σ.stack, indentOf line.data,
        σ.warns ++ [warnMsg line]⟩ := by
  unfold stepM
  simp only [blankTest_false h5, Bool.false_eq_true, if_false, h1, h2, h3, h4]

/-- Witness for the amended C5 statement at a concrete state and line. -/
theorem c5_witness :
    stepM initSt ("zzz") = ⟨stepPop 0 0 initSt.stack, 0, initSt.warns ++ [warnMsg ("zzz")]⟩ :=
  c5_unrecognized_step initSt ("zzz") rfl rfl rfl rfl (by decide)

/-- C5, counterexample to the claim as stated: the unrecognized line `zzz`
does not leave the scope stack unchanged.  At the reachable state after
`package A` and an indented `part B`, stepping the dedented unrecognized
line collapses the stack from three entries to one; consequently a later
deeply indented part attaches to the root instead of to `B`, so the final
trees with and without the unrecognized line differ beyond the diagnostic. -/
theorem c5_counterexample :
    isUnhandled ("zzz") = true ∧
    (runM ["package A", "    part B : LogicalComponent"]).stack.length = 3 ∧
    (stepM (runM ["package A", "    part B : LogicalComponent"]) "zzz").stack.length = 1 ∧
    (parseIndentedModelMermaid
      "package A\n    part B : LogicalComponent\nzzz\n      part C : LogicalComponent").1 =
      Node.mk none none none none (some
        [Node.mk (some ("Package")) (some ("A")) none none (some
          [Node.mk (some ("LogicalComponent")) (some ("B")) none none (some [])]),
         Node.mk (some ("LogicalComponent")) (some ("C")) none none (some [])]) ∧
    (parseIndentedModelMermaid
      "package A\n    part B : LogicalComponent\n      part C : LogicalComponent").1 =
      Node.mk none none none none (some
        [Node.mk (some ("Package")) (some ("A")) none none (some
          [Node.mk (some ("LogicalComponent")) (some ("B")) none none (some
            [Node.mk (some ("LogicalComponent")) (some ("C")) none none (some [])])])]) :=
  ⟨rfl, rfl, rfl, rfl, rfl⟩

/-- C6: a description line assigns its stripped quoted text to the
description field of the innermost scope that is open after the indentation
pop loop, and nothing else changes; a later assignment overwrites an earlier
one; only the top stack entry is modified, never an ancestor or an already
closed sibling; and when only the sentinel remains the text attaches to the
synthetic root without any failure. -/
theorem c6_description_attachment (σ : PSt) (line : String) (g1 : List Char)
    (h1 : pkgMatch line.data = none) (h2 : partMatch line.data = none)
    (h3 : actorMatch line.data = none) (h4 : descMatch line.data = some g1)
    (h5 : pyStripL line.data ≠ []) :
    stepM σ line =
      ⟨setTopDesc (String.mk (pyStripL g1))
          (stepPop (indentOf line.data) σ.prev σ.stack),
        indentOf line.data, σ.warns⟩ ∧
    (∀ (d0 d1 : String) (s : List (Nat × Node)),
      setTopDesc d1 (setTopDesc d0 s) = setTopDesc d1 s) ∧
    (∀ (d : String) (i : Nat) (n : Node) (r : List (Nat × Node)),
      setTopDesc d ((i, n) :: r) = (i, n.withDesc d) :: r) ∧
    (∀ (d : String) (i : Nat),
      setTopDesc d [(i, rootNode)] = [(i, rootNode.withDesc d)]) := by
  refine ⟨?_, ?_, fun d i n r => rfl, fun d i => rfl⟩
  · unfold stepM
    simp only [blankTest_false h5, Bool.false_eq_true, if_false, h1, h2, h3, h4]
  · intro d0 d1 s
    cases s with
    | nil => rfl
    | cons f r =>
        obtain ⟨i, n⟩ := f
        cases n
        rfl

/-- Witness for C6 at a reachable state: the text attaches to the package
opened by the previous line. -/
theorem c6_witness :
    stepM (runM ["package A"]) "  description = \"hi\"" =
      ⟨[(0, Node.mk (some ("Package")) (some ("A")) none (some ("hi")) (some [])),
        (0, rootNode)], 2, []⟩ := by
  have h := c6_description_attachment (runM ["package A"]) "  description = \"hi\""
    "hi".data rfl rfl rfl rfl (by decide)
  exact h.1.trans (by rfl)

/-- C4, amended part: a line matching the part pattern creates a node whose
children slot exists exactly when the declared type is one of the three
special kinds; the pure indentation parser pushes the node onto the scope
stack whatever the type is, and the brace variant parser pushes it exactly
when the line ends with an opening brace, so a part of any other type can
still become a parent and is not always a leaf. -/
theorem c4_children_slots (σ : PSt) (line : String) (g1 g3 : List Char)
    (al : Option (List Char))
    (h1 : pkgMatch line.data = none)
    (h2 : partMatch line.data = some (g1, al, g3))
    (h5 : pyStripL line.data ≠ []) :
    stepM σ line =
      ⟨(indentOf line.data,
          Node.mk (some (String.mk (pyStripL g3))) (some (String.mk (pyStripL g1)))
            (al.map String.mk) none
            (if specialKinds.contains (String.mk (pyStripL g3)) then some [] else none))
        :: stepPop (indentOf line.data) σ.prev σ.stack,
        indentOf line.data, σ.warns⟩ ∧
    stepU σ line =
      (if endsWithBrace line.data then
        ⟨(indentOf line.data + 1,
            Node.mk (some (String.mk g3)) (some (String.mk g1)) (al.map String.mk) none
              (if specialKinds.contains (String.mk g3) then some [] else none))
          :: popUML (indentOf line.data) σ.stack, σ.prev, σ.warns⟩
      else
        ⟨appendToTop
            (Node.mk (some (String.mk g3)) (some (String.mk g1)) (al.map String.mk) none
              (if specialKinds.contains (String.mk g3) then some [] else none))
            (popUML (indentOf line.data) σ.stack), σ.prev, σ.warns⟩) := by
  constructor
  · unfold stepM
    simp only [blankTest_false h5, Bool.false_eq_true, if_false, h1, h2]
  · unfold stepU
    simp only [blankTest_false h5, Bool.false_eq_true, if_false, h1, h2]

/-- Witness for the amended C4 statement: a part of the unrecognized type
`Foo` is created without a children slot, yet the pure indentation parser
pushes it and the brace variant appends it to the root. -/
theorem c4_witness :
    stepM initSt ("part A : Foo") =
      ⟨[(0, Node.mk (some ("Foo")) (some ("A")) none none none), (0, rootNode)], 0, []⟩ ∧
    stepU initSt ("part A : Foo") =
      ⟨[(0, Node.mk none none none none
          (some [Node.mk (some ("Foo")) (some ("A")) none none none]))], 0, []⟩ := by
  have h := c4_children_slots initSt ("part A : Foo") "A".data ("Foo").data none
    rfl rfl (by decide)
  exact ⟨h.1.trans (by rfl), h.2.trans (by rfl)⟩

/-- C4, counterexample to the claim as stated: after parsing a part of type
`Foo` followed by a deeper part, the `Foo` typed node has received a child,
so a part with a type outside the four kinds is not always a leaf. -/
theorem c4_counterexample :
    (parseIndentedModelMermaid ("part A : Foo\n    part B : Bar")).1 =
      Node.mk none none none none (some
        [Node.mk (some ("Foo")) (some ("A")) none none (some
          [Node.mk (some ("Bar")) (some ("B")) none none none])]) ∧
    specialKinds.contains ("Foo") = false ∧ ("Foo" == "Package") = false :=
  ⟨rfl, rfl, rfl⟩

/- ## Child order in the PlantUML renderer -/

/-- The child loop renders the children in list order. -/
theorem genPlantList_eq (l : List Node) (i : Nat) :
    genPlantList l i = l.flatMap (fun c => generatePlantuml c i) := by
  induction l with
  | nil => rfl
  | cons x xs ih => simp [genPlantList, ih]

/-- The optional child loop renders the children in list order. -/
theorem genParts_eq (p : Option (List Node)) (i : Nat) :
    genParts p i = (p.getD []).flatMap (fun c => generatePlantuml c i) := by
  cases p <;> simp [genParts, genPlantList_eq]

/-- The filtered child loop renders exactly the selected children, keeping
their original relative order. -/
theorem genPlantListIf_eq (q : Node → Bool) (l : List Node) (i : Nat) :
    genPlantListIf q l i = (l.filter q).flatMap (fun c => generatePlantuml c i) := by
  induction l with
  | nil => rfl
  | cons x xs ih =>
      simp only [genPlantListIf, List.filter_cons]
      cases h : q x <;> simp [h, ih]

/-- Optional variant of the filtered child loop. -/
theorem genPartsIf_eq (q : Node → Bool) (p : Option (List Node)) (i : Nat) :
    genPartsIf q p i = ((p.getD []).filter q).flatMap (fun c => generatePlantuml c i) := by
  cases p <;> simp [genPartsIf, genPlantListIf_eq]

/-- C8: in the containment renderer a package whose stripped display name
begins with DroneDevelopment emits its children partitioned into the
DroneFunctions prefixed group followed by all others, each group keeping its
original relative order, while a package without that name prefix and a
container component emit their children in unmodified declaration order; the
reordering is a stable partition, hence a permutation of the children, and
it is decided independently at each package, never propagated to the
children themselves. -/
theorem c8_reorder_rule (nm a d : Option String) (p : Option (List Node)) (i : Nat)
    (cs : List Node) :
    generatePlantuml (Node.mk (some ("Package")) nm a d p) i =
      (match a with
        | some al =>
            String.mk (List.replicate (4 * i) ' ') ++ "package "
              ++ formatElement (nm.getD ("")) (some al) ++ " \x7b"
        | none =>
            String.mk (List.replicate (4 * i) ' ') ++ "package \""
              ++ nm.getD ("") ++ "\" \x7b")
      :: ((if ddTest nm then
            (p.getD []).filter dfStart ++ (p.getD []).filter (fun c => !(dfStart c))
          else p.getD []).flatMap (fun c => generatePlantuml c (i + 1)))
      ++ [String.mk (List.replicate (4 * i) ' ') ++ "\x7d"] ∧
    reorderChildren cs = cs.filter dfStart ++ cs.filter (fun c => !(dfStart c)) ∧
    List.Perm (reorderChildren cs) cs ∧
    generatePlantuml (Node.mk (some ("LogicalComponent")) nm a d p) i =
      (if (p.getD []).isEmpty then
        [String.mk (List.replicate (4 * i) ' ') ++ "rectangle "
          ++ (formatElement (nm.getD ("")) a ++ " <<logicalComponent>>")]
      else
        (String.mk (List.replicate (4 * i) ' ') ++ "rectangle "
            ++ (formatElement (nm.getD ("")) a ++ " <<logicalComponent>>") ++ " \x7b")
          :: ((p.getD []).flatMap (fun c => generatePlantuml c (i + 1)))
          ++ [String.mk (List.replicate (4 * i) ' ') ++ "\x7d"]) := by
  refine ⟨?_, rfl, List.filter_append_perm _ _, ?_⟩
  · have hpkg : generatePlantuml (Node.mk (some ("Package")) nm a d p) i =
        (match a with
          | some al =>
              String.mk (List.replicate (4 * i) ' ') ++ "package "
                ++ formatElement (nm.getD ("")) (some al) ++ " \x7b"
          | none =>
              String.mk (List.replicate (4 * i) ' ') ++ "package \""
                ++ nm.getD ("") ++ "\" \x7b")
        :: (if ddTest nm then
              genPartsIf dfStart p (i + 1)
                ++ genPartsIf (fun c => !(dfStart c)) p (i + 1)
            else genParts p (i + 1))
        ++ [String.mk (List.replicate (4 * i) ' ') ++ "\x7d"] := rfl
    rw [hpkg]
    cases hdd : ddTest nm
    · simp only [hdd, Bool.false_eq_true, if_false, genParts_eq]
    · simp only [hdd, if_true, genPartsIf_eq, List.flatMap_append]
  · have hlc : generatePlantuml (Node.mk (some ("LogicalComponent")) nm a d p) i =
        (if !(p.getD []).isEmpty then
          (String.mk (List.replicate (4 * i) ' ') ++ "rectangle "
              ++ (formatElement (nm.getD ("")) a ++ " <<logicalComponent>>") ++ " \x7b")
            :: genParts p (i + 1)
            ++ [String.mk (List.replicate (4 * i) ' ') ++ "\x7d"]
        else
          [String.mk (List.replicate (4 * i) ' ') ++ "rectangle "
            ++ (formatElement (nm.getD ("")) a ++ " <<logicalComponent>>")]) := rfl
    rw [hlc]
    cases hE : (p.getD []).isEmpty
    · simp only [hE, Bool.not_false, if_true, Bool.false_eq_true, if_false, genParts_eq]
    · simp only [hE, Bool.not_true, Bool.false_eq_true, if_false, if_true, genParts_eq]

/- ## Dash freeness toolkit for the DOT renderer -/

/-- The decimal digit characters never render as a dash. -/
theorem digitChar_ne_dash : ∀ d : Nat, (Nat.digitChar d == '-') = false
  | 0 | 1 | 2 | 3 | 4 | 5 | 6 | 7 | 8 | 9 | 10 | 11 | 12 | 13 | 14 | 15 => rfl
  | _ + 16 => rfl

/-- The digit accumulator of the decimal printer stays dash free. -/
theorem toDigitsCore_noDash : ∀ (fuel n : Nat) (ds : List Char),
    ds.any (fun c => c == '-') = false →
    (Nat.toDigitsCore 10 fuel n ds).any (fun c => c == '-') = false := by
  intro fuel
  induction fuel with
  | zero => intro n ds h; exact h
  | succ f ih =>
      intro n ds h
      unfold Nat.toDigitsCore
      by_cases hz : n / 10 = 0
      · simp [hz, List.any_cons, digitChar_ne_dash, h]
      · simp only [hz, if_false]
        exact ih (n / 10) (Nat.digitChar (n % 10) :: ds)
          (by simp [List.any_cons, digitChar_ne_dash, h])

/-- Decimal renderings of naturals contain no dash. -/
theorem noDash_repr (n : Nat) : noDash (Nat.repr n) = true := by
  have h : (Nat.repr n).data = Nat.toDigitsCore 10 (n + 1) n [] := rfl
  simp only [noDash, h]
  rw [toDigitsCore_noDash (n + 1) n [] rfl]
  rfl

/-- Dash freeness distributes over string concatenation. -/
theorem noDash_append (a b : String) : noDash (a ++ b) = (noDash a && noDash b) := by
  simp [noDash, String.data_append, List.any_append]

/-- Replicated spaces contain no dash. -/
theorem anyDash_replicate (n : Nat) :
    (List.replicate n ' ').any (fun c => c == '-') = false := by
  induction n with
  | zero => rfl
  | succ k ih => simp [List.replicate_succ, List.any_cons, ih]

/-- Runs of spaces are dash free. -/
theorem noDash_spaces (n : Nat) : noDash (String.mk (List.replicate n ' ')) = true := by
  simp [noDash, anyDash_replicate]

/-- Generated identifiers are dash free. -/
theorem noDash_id (c : Nat) : noDash (nextIdStr c) = true := by
  simp [nextIdStr, noDash_append, noDash_repr]
  rfl

/-- The two compartment DOT label is dash free when its payloads are. -/
theorem noDash_label2dot (a b : String) (w h1 h2 : Nat)
    (ha : noDash a = true) (hb : noDash b = true) :
    noDash (htmlLabelTwoCompartmentDot a b w h1 h2) = true := by
  simp only [htmlLabelTwoCompartmentDot, noDash_append, noDash_repr, ha, hb]
  decide

/-- The bottom only DOT label is dash free when its payload is. -/
theorem noDash_labelBdot (a : String) (w h1 h2 : Nat) (ha : noDash a = true) :
    noDash (htmlLabelBottomOnlyDot a w h1 h2) = true := by
  simp only [htmlLabelBottomOnlyDot, noDash_append, noDash_repr, ha]
  decide

/- ## Induction over the nested tree and cleanliness of the DOT body -/

/-- Structural induction principle for `Node` through the optional child
list. -/
theorem nodeRec (motive : Node → Prop)
    (h : ∀ (t n a d : Option String) (p : Option (List Node)),
      (∀ c ∈ p.getD [], motive c) → motive (Node.mk t n a d p)) :
    ∀ node, motive node := by
  have H : ∀ (k : Nat) (m : Node), sizeOf m ≤ k → motive m := by
    intro k
    induction k with
    | zero =>
        intro m hm
        exfalso
        cases m with
        | mk t n a d p => simp [Node.mk.sizeOf_spec] at hm
    | succ k ih =>
        intro m hm
        cases m with
        | mk t n a d p =>
            apply h
            intro c hc
            apply ih
            have hlt : sizeOf c < sizeOf (Node.mk t n a d p) := by
              cases p with
              | none => simp at hc
              | some l =>
                  have h2 : sizeOf c < sizeOf l := List.sizeOf_lt_of_mem (by simpa using hc)
                  simp [Node.mk.sizeOf_spec, Option.some.sizeOf_spec]
                  omega
            simp only [Node.mk.sizeOf_spec] at hm hlt ⊢
            omega
  intro node
  exact H (sizeOf node) node le_rfl

/-- Child loop cleanliness, given cleanliness of each rendered child. -/
theorem genDotList_clean (l : List Node)
    (hall : ∀ c ∈ l, cleanN c = true →
      ∀ ind cnt, ((genDot c ind cnt).2.1).all noDash = true)
    (hc : cleanL l = true) :
    ∀ ind cnt, ((genDotList l ind cnt).1).all noDash = true := by
  induction l with
  | nil => intro ind cnt; rfl
  | cons x xs ih =>
      intro ind cnt
      have hx : cleanN x = true ∧ cleanL xs = true := by
        simpa [cleanL, Bool.and_eq_true] using hc
      simp only [genDotList, List.all_append, Bool.and_eq_true]
      exact ⟨hall x (by simp) hx.1 ind cnt,
        ih (fun c hm => hall c (by simp [hm])) hx.2 ind _⟩

/-- Optional child loop cleanliness. -/
theorem genDotParts_clean (p : Option (List Node))
    (hall : ∀ c ∈ p.getD [], cleanN c = true →
      ∀ ind cnt, ((genDot c ind cnt).2.1).all noDash = true)
    (hc : cleanP p = true) :
    ∀ ind cnt, ((genDotParts p ind cnt).1).all noDash = true := by
  cases p with
  | none => intro ind cnt; rfl
  | some l =>
      exact genDotList_clean l (by simpa using hall) (by simpa [cleanP] using hc)

/-- On a tree whose names and descriptions are dash free, every line the DOT
renderer emits for a node is dash free. -/
theorem genDot_clean : ∀ (node : Node), cleanN node = true →
    ∀ ind cnt, ((genDot node ind cnt).2.1).all noDash = true := by
  intro node
  induction node using nodeRec with
  | h t n a d p ihkids =>
      intro hc ind cnt
      have hsplit : noDash (n.getD ("")) = true ∧ noDash (d.getD ("")) = true ∧
          cleanP p = true := by
        simpa [cleanN, Bool.and_eq_true, and_assoc] using hc
      obtain ⟨hn, hd2, hp⟩ := hsplit
      have hkids : ∀ ind2 cnt2, ((genDotParts p ind2 cnt2).1).all noDash = true :=
        genDotParts_clean p (fun c hm => ihkids c hm) hp
      simp only [genDot]
      split_ifs <;>
        simp [List.all_cons, List.all_append, noDash_append, noDash_spaces, noDash_id,
          noDash_label2dot, noDash_labelBdot, hn, hd2, hkids, noDash_repr, nextIdStr] <;>
        decide

/- ## The invisible ordering edge of the DOT renderer -/

/-- The body lines of the top level loop are dash free on a clean tree. -/
theorem dotTopGo_clean (l : List Node) (hc : cleanL l = true) :
    ∀ (cnt : Nat) (tf ta : Option String),
      ((dotTopGo l cnt tf ta).2.2.1).all noDash = true := by
  induction l with
  | nil => intro cnt tf ta; rfl
  | cons x xs ih =>
      intro cnt tf ta
      have hx : cleanN x = true ∧ cleanL xs = true := by
        simpa [cleanL, Bool.and_eq_true] using hc
      simp only [dotTopGo, List.all_append, Bool.and_eq_true]
      exact ⟨genDot_clean x hx.1 4 cnt, ih hx.2 _ _ _⟩

/-- The first accumulator of the top level loop is set exactly when the
incoming value was set or some child strips to the first literal name. -/
theorem dotTopGo_tf (l : List Node) :
    ∀ (cnt : Nat) (tf ta : Option String),
      (dotTopGo l cnt tf ta).1.isSome =
        (tf.isSome || l.any (fun c => pyStripStr (nameget c) == "DroneFunctions")) := by
  induction l with
  | nil => intro cnt tf ta; simp [dotTopGo]
  | cons x xs ih =>
      intro cnt tf ta
      simp only [dotTopGo, List.any_cons]
      rw [ih]
      cases hdf : pyStripStr (nameget x) == "DroneFunctions" <;>
        simp [hdf, Bool.or_assoc]

/-- The second accumulator of the top level loop is set exactly when the
incoming value was set or some child strips to the second literal name; the
elif makes a first-name child irrelevant here, and no child can match both
names. -/
theorem dotTopGo_ta (l : List Node) :
    ∀ (cnt : Nat) (tf ta : Option String),
      (dotTopGo l cnt tf ta).2.1.isSome =
        (ta.isSome ||
          l.any (fun c => pyStripStr (nameget c) == "DroneLogicalArchitecture")) := by
  induction l with
  | nil => intro cnt tf ta; simp [dotTopGo]
  | cons x xs ih =>
      intro cnt tf ta
      simp only [dotTopGo, List.any_cons]
      rw [ih]
      cases hdf : pyStripStr (nameget x) == "DroneFunctions"
      · cases hdla : pyStripStr (nameget x) == "DroneLogicalArchitecture" <;>
          simp [hdf, hdla, Bool.or_assoc]
      · have heq : pyStripStr (nameget x) = "DroneFunctions" := eq_of_beq hdf
        simp [hdf, heq, Bool.or_assoc]

/-- Cleanliness of the top level children of a clean tree. -/
theorem cleanKids {t : Node} (hc : cleanN t = true) : cleanL t.kids = true := by
  cases t with
  | mk tt n a d p =>
      cases p with
      | none => rfl
      | some l =>
          simp only [cleanN, Bool.and_eq_true] at hc
          simpa [Node.kids, Node.nparts, cleanP] using hc.2

/-- A list of dash free lines contains no dashed line. -/
theorem countP_dash_zero {ls : List String} (h : ls.all noDash = true) :
    ls.countP (fun s => s.data.any (fun c => c == '-')) = 0 := by
  rw [List.countP_eq_zero]
  intro a ha
  have h2 := List.all_eq_true.mp h a ha
  simp only [noDash, Bool.not_eq_true'] at h2
  simp [h2]

/-- The invisible edge line always contains a dash. -/
theorem edge_hasDash (f a : String) :
    (("    " ++ f ++ " -> " ++ a ++ " [style=invis];").data.any
      (fun c => c == '-')) = true := by
  have harrow : (" -> ".data.any (fun c => c == '-')) = true := by decide
  simp [String.data_append, List.any_append, harrow]

/-- The dashed line count of the optional edge block. -/
theorem countP_invisEdge (tf ta : Option String) :
    (invisEdge tf ta).countP (fun s => s.data.any (fun c => c == '-')) =
      (if tf.isSome && ta.isSome then 1 else 0) := by
  cases tf <;> cases ta <;> simp [invisEdge, List.countP_cons, edge_hasDash]

/-- C7: on a tree whose names and descriptions contain no dash and whose top
level names carry no surrounding whitespace, the DOT output contains exactly
one dashed line (the invisible ordering edge, the only line of the notation
using an arrow) when children named DroneFunctions and
DroneLogicalArchitecture are both present among the top level children, and
no dashed line when either name is absent. -/
theorem c7_invisible_edge (t : Node)
    (hc : cleanN t = true)
    (hstrip : ∀ c ∈ t.kids, pyStripStr (nameget c) = nameget c) :
    ((buildDotLines t 0).1).countP (fun s => s.data.any (fun c => c == '-')) =
      (if hasTopName t ("DroneFunctions") ∧ hasTopName t ("DroneLogicalArchitecture")
        then 1 else 0) := by
  have hkids : cleanL t.kids = true := cleanKids hc
  have hbody := dotTopGo_clean t.kids hkids 0 none none
  have htf := dotTopGo_tf t.kids 0 none none
  have hta := dotTopGo_ta t.kids 0 none none
  simp only [Option.isSome_none, Bool.false_or] at htf hta
  have hdfiff :
      (t.kids.any (fun c => pyStripStr (nameget c) == "DroneFunctions")) = true ↔
        hasTopName t ("DroneFunctions") := by
    simp only [List.any_eq_true, hasTopName]
    constructor
    · rintro ⟨c, hm, hbeq⟩
      exact ⟨c, hm, by rw [← hstrip c hm]; exact eq_of_beq hbeq⟩
    · rintro ⟨c, hm, heq⟩
      refine ⟨c, hm, ?_⟩
      rw [hstrip c hm, heq]
      rfl
  have hdlaiff :
      (t.kids.any
        (fun c => pyStripStr (nameget c) == "DroneLogicalArchitecture")) = true ↔
        hasTopName t ("DroneLogicalArchitecture") := by
    simp only [List.any_eq_true, hasTopName]
    constructor
    · rintro ⟨c, hm, hbeq⟩
      exact ⟨c, hm, by rw [← hstrip c hm]; exact eq_of_beq hbeq⟩
    · rintro ⟨c, hm, heq⟩
      refine ⟨c, hm, ?_⟩
      rw [hstrip c hm, heq]
      rfl
  have hhdr : dotHeader.countP (fun s => s.data.any (fun c => c == '-')) = 0 := rfl
  have hclose : (["\x7d"] : List String).countP
      (fun s => s.data.any (fun c => c == '-')) = 0 := rfl
  simp only [buildDotLines]
  rw [List.countP_append, List.countP_append, List.countP_append, hhdr, hclose,
    countP_dash_zero hbody, countP_invisEdge, htf, hta]
  rw [if_congr (Iff.intro
      (fun hand => by
        rw [Bool.and_eq_true, hdfiff, hdlaiff] at hand
        exact hand)
      (fun hand => by
        rw [Bool.and_eq_true, hdfiff, hdlaiff]
        exact hand)) rfl rfl]
  omega

/-- Witness for C7 at a concrete clean tree holding both designated top
level packages: the output contains exactly one dashed line. -/
theorem c7_witness :
    ((buildDotLines (Node.mk none none none none (some
        [Node.mk (some ("Package")) (some ("DroneFunctions")) none none (some []),
         Node.mk (some ("Package")) (some ("DroneLogicalArchitecture")) none none
           (some [])])) 0).1).countP
      (fun s => s.data.any (fun c => c == '-')) = 1 := by
  have h := c7_invisible_edge
    (Node.mk none none none none (some
      [Node.mk (some ("Package")) (some ("DroneFunctions")) none none (some []),
       Node.mk (some ("Package")) (some ("DroneLogicalArchitecture")) none none
         (some [])]))
    (by rfl)
    (by intro c hm; fin_cases hm <;> rfl)
  rw [h]
  rfl

/- ## Concrete validation of the embedding

The matcher reproduces CPython on the delicate cases: the greedy name class
swallows an unquoted alias clause, quoting restores the alias, the part
pattern backtracks into its name group, and a dangling alias keyword makes
the whole pattern fail.  The end to end check parses the example scenario of
the specification into its expected tree. -/

example : pkgMatch ("package Foo as F").data = some ("Foo as F".data, none) := rfl

example : pkgMatch ("package \"Foo\" as F").data =
    some ("\"Foo\"".data, some ("F").data) := rfl

example : partMatch ("part Sense as S : LogicalFunction").data =
    some ("Sense".data, some ("S").data, "LogicalFunction".data) := rfl

example : partMatch ("part Aas b : T").data =
    some ("A".data, some ("b").data, "T".data) := rfl

example : partMatch ("part A as : T").data = none := rfl

example : descMatch ("  description = \"Detect obstacles\"").data =
    some ("Detect obstacles").data := rfl

example : pkgMatch ("packageX").data = none := rfl

example : actorMatch ("actor Pilot").data = some ("Pilot".data, none) := rfl

example :
    (parseIndentedModelMermaid
      "package DroneFunctions\n  part Sense as S : LogicalFunction\n    description = \"Detect obstacles\"\npackage DroneLogicalArchitecture\n  part Lidar : LogicalComponent").1 =
    Node.mk none none none none (some
      [ Node.mk (some ("Package")) (some ("DroneFunctions")) none none (some
          [ Node.mk (some ("LogicalFunction")) (some ("Sense")) (some ("S"))
              (some ("Detect obstacles")) (some []) ]),
        Node.mk (some ("Package")) (some ("DroneLogicalArchitecture")) none none (some
          [ Node.mk (some ("LogicalComponent")) (some ("Lidar")) none none (some []) ]) ]) :=
  rfl
